import Mathlib

/-!
Verification development for the TDX binary quote-file ingestion pipeline
(`TDX_To_HDF5.py`).  The Python functions are shallowly embedded as Lean
definitions: byte strings are `List ℕ`, Python strings are `List Char`
(compared by code point, as Python does), IEEE-754 binary32 payloads are
decoded exactly (every finite float32 is a rational with denominator
dividing 2^149; we carry magnitudes scaled by 2^149 * 10^4 so that both
raw decoded values and their 4-decimal roundings are integers at that
scale), and the side effects of the worker (store writes, progress-queue
puts, error-sink entries, batch-queue puts) are reified as an explicit
effect trace.
-/

set_option maxRecDepth 100000

/-- Python strings, modelled as their code-point sequences. -/
abbrev Str := List Char

/-- Python's `<` on strings: lexicographic comparison by code point. -/
def strLt : Str → Str → Bool
  | [], [] => false
  | [], _ :: _ => true
  | _ :: _, [] => false
  | a :: as, b :: bs =>
    if a.toNat < b.toNat then true
    else if b.toNat < a.toNat then false
    else strLt as bs

/-- Python's `<=` on strings (`a <= b` iff `not (b < a)`), the order under
which `list.sort` produces an ascending list. -/
def strLe (a b : Str) : Bool := !(strLt b a)

/-- Decimal digits of `n`, least significant first, with structural fuel
(`fuel = 10` covers every 32-bit value). -/
def digitsRev : ℕ → ℕ → List ℕ
  | 0, _ => []
  | _ + 1, 0 => []
  | f + 1, n => n % 10 :: digitsRev f (n / 10)

/-- Decimal rendering of a natural number, as Python's `str`/`%d` does. -/
def decChars (n : ℕ) : Str :=
  if n = 0 then ['0']
  else ((digitsRev 10 n).reverse).map (fun d => Char.ofNat (48 + d))

/-- Zero padding to width `w`, as Python's `{:0wd}` format (no truncation). -/
def padZ (w : ℕ) (s : Str) : Str := List.replicate (w - s.length) '0' ++ s

/-- The decoder's date formatting `f"{year:04d}-{month:02d}-{day:02d}"`
applied to the decomposition `year = d / 10000`, `month = d % 10000 / 100`,
`day = d % 100` of the 8-digit date integer (lines 205-209 of the source). -/
def dateStr (d : ℕ) : Str :=
  padZ 4 (decChars (d / 10000)) ++
    '-' :: (padZ 2 (decChars (d % 10000 / 100)) ++ '-' :: padZ 2 (decChars (d % 100)))

/-- Exact value of a finite IEEE-754 binary32 number: sign and magnitude,
the magnitude scaled by `2^149 * 10^4` so that it is a natural number both
for raw decoded values (denominator divides `2^149`) and for values rounded
to 4 decimal places (denominator divides `10^4`).  A zero magnitude is
always stored with `neg = false`, which collapses `-0.0` and `0.0` exactly
as Python's `==`/`!=` does. -/
structure FVal where
  neg : Bool
  mag : ℕ
deriving DecidableEq

/-- The global scale of `FVal.mag`: a magnitude `m` denotes `m / fscale`. -/
def fscale : ℕ := 2 ^ 149 * 10 ^ 4

/-- A Python float as produced by `struct.unpack` of a 4-byte `f` field. -/
inductive PyF
  | finite (v : FVal)
  | inf
  | ninf
  | nan
deriving DecidableEq

/-- Little-endian unsigned 32-bit integer from 4 bytes (`struct` format
character `I`). -/
def u32le (bs : List ℕ) : ℕ :=
  bs.getD 0 0 + 256 * bs.getD 1 0 + 65536 * bs.getD 2 0 + 16777216 * bs.getD 3 0

/-- Exact decoding of 4 little-endian bytes as an IEEE-754 binary32 value
(`struct` format character `f`).  Normal values are
`(2^23 + m) * 2^(e-150)`, subnormals `m * 2^-149`; both are returned as
magnitudes at scale `fscale`. -/
def decodeF32 (bs : List ℕ) : PyF :=
  let bits := u32le bs
  let s := bits / 2 ^ 31
  let e := bits / 2 ^ 23 % 2 ^ 8
  let m := bits % 2 ^ 23
  if e = 255 then
    if m = 0 then (if s = 1 then .ninf else .inf) else .nan
  else
    let mag : ℕ := if e = 0 then m * 10 ^ 4 else (2 ^ 23 + m) * 2 ^ (e - 1) * 10 ^ 4
    .finite ⟨if mag = 0 then false else s = 1, mag⟩

/-- Round-half-even of `n / 2^149` (the decimal-rounding step of Python's
`round(x, 4)` acting on the scaled magnitude: `x * 10^4 = mag / 2^149`). -/
def rndHalfEven149 (n : ℕ) : ℕ :=
  let f := n / 2 ^ 149
  let r := n % 2 ^ 149
  if r < 2 ^ 148 then f
  else if 2 ^ 148 < r then f + 1
  else if f % 2 = 0 then f else f + 1

/-- Python's `round(x, 4)` on an exact finite float value: round
`x * 10^4` half-to-even and divide back (the result is kept exact rather
than re-rounded to binary32; rounding to nearest decimal is symmetric in
the sign, so it acts on the magnitude). -/
def round4v (v : FVal) : FVal :=
  let k := rndHalfEven149 v.mag * 2 ^ 149
  ⟨if k = 0 then false else v.neg, k⟩

/-- Python's `round(x, 4)` on a float: finite values are decimally rounded,
`inf`/`-inf`/`nan` are returned unchanged. -/
def round4 : PyF → PyF
  | .finite v => .finite (round4v v)
  | x => x

/-- Python's `x != 0` test on a float, used by the decoder to normalise
zero `amount`/`volume`/`prev_close` fields to `None` (`nan != 0` is true,
infinities are nonzero, `-0.0 != 0` is false). -/
def isZeroF : PyF → Bool
  | .finite v => v.mag = 0
  | _ => false

/-- Byte slice of field `i` (each field of both candidate layouts is 4
bytes wide, so field `i` occupies bytes `4*i .. 4*i+3`). -/
def fieldSlice (b : List ℕ) (i : ℕ) : List ℕ := (b.drop (4 * i)).take 4

/-- Result of `struct.unpack('IffffffI', buffer)`: an 8-digit date integer,
six binary32 fields, and a trailing unsigned 32-bit integer. -/
structure Fields1 where
  date : ℕ
  f1 : PyF
  f2 : PyF
  f3 : PyF
  f4 : PyF
  f5 : PyF
  f6 : PyF
  last : ℕ
deriving DecidableEq

/-- Result of `struct.unpack('IfffffII', buffer)`: an 8-digit date integer,
five binary32 fields, and two trailing unsigned 32-bit integers. -/
structure Fields2 where
  date : ℕ
  f1 : PyF
  f2 : PyF
  f3 : PyF
  f4 : PyF
  f5 : PyF
  i6 : ℕ
  i7 : ℕ
deriving DecidableEq

/-- Size in bytes described by the primary layout `'IffffffI'`
(`struct.calcsize`): one `I`, six `f`, one `I`, each 4 bytes. -/
def calcsizeFmt1 : ℕ := 4 + 6 * 4 + 4

/-- Size in bytes described by the alternate layout `'IfffffII'`. -/
def calcsizeFmt2 : ℕ := 4 + 5 * 4 + 2 * 4

/-- The `struct.unpack('IffffffI', buffer)` call, which raises (returns
`none`) exactly when the buffer length differs from the format's size. -/
def unpackFmt1 (b : List ℕ) : Option Fields1 :=
  if b.length = calcsizeFmt1 then
    some ⟨u32le (fieldSlice b 0), decodeF32 (fieldSlice b 1), decodeF32 (fieldSlice b 2),
      decodeF32 (fieldSlice b 3), decodeF32 (fieldSlice b 4), decodeF32 (fieldSlice b 5),
      decodeF32 (fieldSlice b 6), u32le (fieldSlice b 7)⟩
  else none

/-- The `struct.unpack('IfffffII', buffer)` call of the alternate-layout
branch. -/
def unpackFmt2 (b : List ℕ) : Option Fields2 :=
  if b.length = calcsizeFmt2 then
    some ⟨u32le (fieldSlice b 0), decodeF32 (fieldSlice b 1), decodeF32 (fieldSlice b 2),
      decodeF32 (fieldSlice b 3), decodeF32 (fieldSlice b 4), decodeF32 (fieldSlice b 5),
      u32le (fieldSlice b 6), u32le (fieldSlice b 7)⟩
  else none

/-- One decoded quote record as the decoder builds it (`open`..`close`
rounded on decode, `amount`/`volume`/`prev_close` normalised to `None`
when zero; `prev_close` comes from an integer field in both layouts).
`opn` stands for the source's `open` key, which is a Lean keyword. -/
structure Rec where
  date : Str
  opn : PyF
  high : PyF
  low : PyF
  close : PyF
  amount : Option PyF
  volume : Option PyF
  prev_close : Option ℕ
deriving DecidableEq

/-- Record construction of the `format_used == 1` branch (source lines
216-227). -/
def mkRec1 (f : Fields1) : Rec :=
  { date := dateStr f.date
    opn := round4 f.f1
    high := round4 f.f2
    low := round4 f.f3
    close := round4 f.f4
    amount := if isZeroF f.f5 then none else some f.f5
    volume := if isZeroF f.f6 then none else some f.f6
    prev_close := if f.last = 0 then none else some f.last }

/-- Record construction of the `format_used == 2` branch (source lines
228-239; textually identical to the first branch, but `fields[6]` is an
integer there, so `volume` holds an integer value). -/
def mkRec2 (f : Fields2) : Rec :=
  { date := dateStr f.date
    opn := round4 f.f1
    high := round4 f.f2
    low := round4 f.f3
    close := round4 f.f4
    amount := if isZeroF f.f5 then none else some f.f5
    volume := if f.i6 = 0 then none else some (.finite ⟨false, f.i6 * fscale⟩)
    prev_close := if f.i7 = 0 then none else some f.i7 }

/-- Python's `if min_date and date_str < min_date: continue` guard: an
empty (falsy) cutoff string disables the filter. -/
def minDateSkips (min_date : Option Str) (date_str : Str) : Bool :=
  match min_date with
  | none => false
  | some m => !m.isEmpty && strLt date_str m

/-- The per-buffer body of the decoder loop (source lines 188-241): try the
primary layout, fall back to the alternate one, skip the record if both
fail; then apply the minimum-date filter and build the record. -/
def decodeBuffer (min_date : Option Str) (b : List ℕ) : Option Rec :=
  match unpackFmt1 b with
  | some f => if minDateSkips min_date (dateStr f.date) then none else some (mkRec1 f)
  | none =>
    match unpackFmt2 b with
    | some f => if minDateSkips min_date (dateStr f.date) then none else some (mkRec2 f)
    | none => none

/-- The 32-byte slices `mm[32*i : 32*i + 32]` for `i < n` (structural in
the record count `n`). -/
def chunks32 : ℕ → List ℕ → List (List ℕ)
  | 0, _ => []
  | n + 1, bs => bs.take 32 :: chunks32 n (bs.drop 32)

/-- Ascending-by-date order on records; Python's stable `list.sort` with
key `x['date']` ascending is exactly the unique stable sort under this
total preorder. -/
def recLe (a b : Rec) : Prop := strLe a.date b.date = true

instance : DecidableRel recLe := fun a b => instDecidableEqBool (strLe a.date b.date) true

/-- The parser `parse_fund_data_mmap` (source lines 163-248): reject files
whose size is not a multiple of 32, decode each 32-byte record with layout
fallback and minimum-date filtering, and sort the result ascending by
date. -/
def parse_fund_data_mmap (file : List ℕ) (min_date : Option Str) : List Rec :=
  if file.length % 32 ≠ 0 then []
  else List.insertionSort recLe ((chunks32 (file.length / 32) file).filterMap (decodeBuffer min_date))

/-- The content fingerprint sample of `calculate_file_hash` (source lines
137-160): the first 1024 bytes, plus — only when the file is larger than
2048 bytes — the last 1024 bytes (`f.seek(-1024, SEEK_END); f.read(1024)`).
This is the exact byte string fed to `hashlib.md5`. -/
def hashSample (file : List ℕ) : List ℕ :=
  if 2048 < file.length then file.take 1024 ++ file.drop (file.length - 1024)
  else file.take 1024

/-- The fingerprint `calculate_file_hash` returns: the MD5 hex digest of
the prefix/suffix sample.  MD5 itself is an unmodelled deterministic
digest function, passed as a parameter `md5`. -/
def calculate_file_hash (md5 : List ℕ → Str) (file : List ℕ) : Str :=
  md5 (hashSample file)

/-- Python's `str.split(sep)` for a one-character separator. -/
def splitOnChar (c : Char) : Str → List Str
  | [] => [[]]
  | x :: xs =>
    match splitOnChar c xs with
    | [] => [[]]
    | h :: t => if x = c then [] :: h :: t else (x :: h) :: t

/-- The worker's instrument-id extraction
`filename.split('#')[1].split('.')[0]` (source line 264), reached only
after the `'#' in filename` guard. -/
def extractStockCode (filename : Str) : Str :=
  (splitOnChar '.' ((splitOnChar '#' filename).getD 1 [])).headD []

/-- Observable side effects of the worker path, reified: a direct write of
one instrument's series into the HDF5 store (the `h5py.File(storage_file,
'a')` block of `save_to_storage_streaming`), a progress-queue put, an
error-sink diagnostic file, and a put onto the Batch Writer's
`data_cache_queue`. -/
inductive Effect
  | storeWrite (code : Str) (recs : List Rec)
  | progressPut (fileIndex : ℕ) (success : Bool)
  | errorSink (filePath : Str)
  | cacheQueuePut (code : Str) (recs : List Rec)
deriving DecidableEq

/-- Whether an effect is a direct store write. -/
def Effect.isStoreWrite : Effect → Bool
  | .storeWrite _ _ => true
  | _ => false

/-- Whether an effect is a progress-queue put. -/
def Effect.isProgressPut : Effect → Bool
  | .progressPut _ _ => true
  | _ => false

/-- Whether an effect is an error-sink entry. -/
def Effect.isErrorSink : Effect → Bool
  | .errorSink _ => true
  | _ => false

/-- Whether an effect is a put onto the Batch Writer's input queue. -/
def Effect.isCacheQueuePut : Effect → Bool
  | .cacheQueuePut _ _ => true
  | _ => false

/-- Effect trace of `save_to_storage_streaming` (source lines 316-415) on
its success path: it writes the series for `stock_code` directly into the
main store (temp-file write, lock-protected delete-then-copy, flush) and
then puts one `(current_file, total_files, start_time, True)` event on the
progress queue — the `success` component is the literal `True` of line
406.  The lock-acquisition loop it runs around the write is modelled
separately by `acquireLock` below. -/
def save_to_storage_streaming (data : List Rec) (stock_code : Str) (fileIndex : ℕ) :
    List Effect :=
  [.storeWrite stock_code data, .progressPut fileIndex true]

/-- The arguments of one worker invocation: the source path, its basename
(from which the instrument id is extracted), the file's bytes, the
minimum-date cutoff, the 1-based file index, and the fingerprints already
registered in the processed-file state. -/
structure WorkerArgs where
  filePath : Str
  fileName : Str
  content : List ℕ
  minDate : Option Str
  fileIndex : ℕ
  processedFiles : List Str

/-- The worker `process_single_file_enhanced` (source lines 251-313),
returning its boolean result and its effect trace: skip (returning `True`)
when the content fingerprint is already registered; fail (returning
`False`) when the filename has no `'#'` or the parse yields no records;
otherwise write the parsed series via `save_to_storage_streaming` and
return `True`.  The `except` branch that writes an error-sink entry is
reached only when one of these steps raises, which none of the modelled
steps does. -/
def process_single_file_enhanced (md5 : List ℕ → Str) (a : WorkerArgs) :
    Bool × List Effect :=
  let file_hash := calculate_file_hash md5 a.content
  if a.processedFiles.contains file_hash then (true, [])
  else if a.fileName.contains '#' then
    let fund_data := parse_fund_data_mmap a.content a.minDate
    if fund_data.isEmpty then (false, [])
    else (true, save_to_storage_streaming fund_data (extractStockCode a.fileName) a.fileIndex)
  else (false, [])

/-- The HDF5 store: a map from instrument id to its series and the
`record_count` attribute written next to it. -/
def Store := Str → Option (List Rec × ℕ)

/-- Writing one instrument's series with replace semantics: `if stock_code
in hf: del hf[stock_code]`, then `create_group` with the column datasets
and `attrs['record_count'] = len(records)` (source lines 452-481 and
379-387). -/
def storeSet (s : Store) (code : Str) (recs : List Rec) : Store :=
  fun k => if k = code then some (recs, recs.length) else s k

/-- The per-batch write loop of `batch_write_to_hdf5_optimized`: one
`storeSet` per `(stock_code, records)` entry of the batch dict, in
iteration order. -/
def batchMergeStore (s : Store) (batch : List (Str × List Rec)) : Store :=
  batch.foldl (fun st p => storeSet st p.1 p.2) s

/-- Outcome of one run of the LockFile acquisition loop: whether the
exclusive create succeeded, how many creation attempts were made, and the
sleep durations (milliseconds) between attempts. -/
structure LockResult where
  acquired : Bool
  attempts : ℕ
  sleeps : List ℕ
deriving DecidableEq

/-- The retry budget `max_retries = 10` of both lock loops (source lines
356 and 429). -/
def max_retries : ℕ := 10

/-- The LockFile loop body (source lines 361-370 and 434-443): while the
lock is unacquired and `retry_count < max_retries`, attempt an exclusive
create (`open(lock_file, 'x')`, success decided by the environment `env`
as a function of the current `retry_count`); on `FileExistsError`,
increment `retry_count` and sleep `0.2 * retry_count` seconds (here: `200
* retry_count` milliseconds).  Structural fuel equals the remaining
permitted attempts. -/
def lockLoop (env : ℕ → Bool) : ℕ → ℕ → LockResult
  | 0, _ => ⟨false, 0, []⟩
  | fuel + 1, rc =>
    if env rc then ⟨true, 1, []⟩
    else
      let r := lockLoop env fuel (rc + 1)
      ⟨r.acquired, r.attempts + 1, 200 * (rc + 1) :: r.sleeps⟩

/-- One full run of the LockFile acquisition loop, starting from
`retry_count = 0` with the full `max_retries` budget. -/
def acquireLock (env : ℕ → Bool) : LockResult := lockLoop env max_retries 0

/-- The Batch Writer's merge `batch_write_to_hdf5_optimized` (source lines
418-510): return immediately on an empty batch; otherwise run the lock
loop and — whether or not the lock was acquired (line 445: only a warning
is printed) — perform the replace-write of every batch entry.  Returns the
new store and the lock outcome. -/
def batch_write_to_hdf5_optimized (env : ℕ → Bool) (store : Store)
    (batch_data : List (Str × List Rec)) : Store × LockResult :=
  if batch_data.isEmpty then (store, ⟨false, 0, []⟩)
  else (batchMergeStore store batch_data, acquireLock env)

/-- The dict accumulation `batch_data[stock_code].extend(data)` of the
Batch Writer loop (source lines 525-527). -/
def dictExtend (d : List (Str × List Rec)) (code : Str) (recs : List Rec) :
    List (Str × List Rec) :=
  match d with
  | [] => [(code, recs)]
  | (c, rs) :: t => if c = code then (c, rs ++ recs) :: t else (c, rs) :: dictExtend t code recs

/-- Total accumulated record count, `sum(len(records) for records in
batch_data.values())` (source line 530). -/
def totalRecords (d : List (Str × List Rec)) : ℕ := (d.map (fun p => p.2.length)).sum

/-- The Batch Writer loop over a drained sequence of queue items: extend
the accumulator, flush through `batchMergeStore` once the total record
count reaches `batch_size`, and flush any remainder at the end (source
lines 517-549; the timing-dependent idle flush of the `queue.Empty` branch
coincides with the final flush on a fixed item sequence). -/
def autoBatchGo (batch_size : ℕ) : List (Str × List Rec) → Store → List (Str × List Rec) → Store
  | [], store, acc => if acc.isEmpty then store else batchMergeStore store acc
  | (code, recs) :: rest, store, acc =>
    let acc2 := dictExtend acc code recs
    if batch_size ≤ totalRecords acc2 then autoBatchGo batch_size rest (batchMergeStore store acc2) []
    else autoBatchGo batch_size rest store acc2

/-- The Batch Writer task `auto_batch_write_optimized`, applied to the
sequence of `(stock_code, data)` items it consumes from
`data_cache_queue`. -/
def auto_batch_write_optimized (batch_size : ℕ) (items : List (Str × List Rec))
    (store : Store) : Store :=
  autoBatchGo batch_size items store []

/-- The `(stock_code, data)` items the worker contributes to the Batch
Writer's `data_cache_queue`: the `cacheQueuePut` effects of its trace. -/
def cacheItems (es : List Effect) : List (Str × List Rec) :=
  es.filterMap fun e =>
    match e with
    | .cacheQueuePut c r => some (c, r)
    | _ => none

/-- Whether the worker reaches the save path for its file: the fingerprint
is new, the filename carries a `'#'`, and the parse yields at least one
record. -/
def workerSaves (md5 : List ℕ → Str) (a : WorkerArgs) : Bool :=
  !a.processedFiles.contains (calculate_file_hash md5 a.content) &&
    a.fileName.contains '#' && !(parse_fund_data_mmap a.content a.minDate).isEmpty

/-- Exact numeric value of a Python `int` at the `FVal` scale, for
comparing integer-decoded fields with float-decoded ones. -/
def intAsPyF (n : ℕ) : PyF := .finite ⟨false, n * fscale⟩

/-- Validity of a calendar date, following the specification's requirement
that the 8-digit date integer "must be decomposed and validated into a
calendar date"; stated from the spec for comparison with the decoder,
which the source never performs. -/
def validCalendarDate (y m d : ℕ) : Bool :=
  (1 ≤ m && m ≤ 12) && (1 ≤ d && d ≤
    (if m = 2 then (if (y % 4 = 0 && y % 100 ≠ 0) || y % 400 = 0 then 29 else 28)
     else if m = 4 || m = 6 || m = 9 || m = 11 then 30 else 31))

/-- Little-endian byte encoding of a 32-bit value, used to build concrete
record buffers. -/
def le4 (n : ℕ) : List ℕ := [n % 256, n / 256 % 256, n / 65536 % 256, n / 16777216 % 256]

/-- A 32-byte record buffer: date `20230101`, every other field zero. -/
def buf20230101 : List ℕ :=
  le4 20230101 ++ le4 0 ++ le4 0 ++ le4 0 ++ le4 0 ++ le4 0 ++ le4 0 ++ le4 0

/-- The zero float value. -/
def zeroF : PyF := .finite ⟨false, 0⟩

/-- The record decoded from `buf20230101`. -/
def rec20230101 : Rec :=
  ⟨['2', '0', '2', '3', '-', '0', '1', '-', '0', '1'], zeroF, zeroF, zeroF, zeroF,
    none, none, none⟩

/-- A placeholder record used as a `getD`/`headD` default in concrete
statements. -/
def emptyRec : Rec := ⟨[], .nan, .nan, .nan, .nan, none, none, none⟩

/-- A fixed digest function for closed concrete statements; the store,
queue and error-sink behaviour under scrutiny never depends on the digest
values themselves. -/
def dMd5 : List ℕ → Str := fun _ => []

theorem strLt_irrefl (a : Str) : strLt a a = false := by
  induction a with
  | nil => rfl
  | cons x xs ih => simp [strLt, ih]

theorem strLt_trans : ∀ a b c : Str, strLt a b = true → strLt b c = true → strLt a c = true := by
  intro a
  induction a with
  | nil =>
    intro b c hab hbc
    cases b with
    | nil => exact hbc
    | cons y ys => cases c with
      | nil => simp [strLt] at hbc
      | cons z zs => rfl
  | cons x xs ih =>
    intro b c hab hbc
    cases b with
    | nil => simp [strLt] at hab
    | cons y ys =>
      cases c with
      | nil => simp [strLt] at hbc
      | cons z zs =>
        simp only [strLt] at hab hbc ⊢
        rcases Nat.lt_trichotomy x.toNat y.toNat with h1 | h1 | h1 <;>
          rcases Nat.lt_trichotomy y.toNat z.toNat with h2 | h2 | h2 <;>
          simp_all <;> try omega
        · exact ih ys zs hab hbc

theorem strLt_asymm (a b : Str) (h : strLt a b = true) : strLt b a = false := by
  by_contra hc
  have hba : strLt b a = true := by
    cases hx : strLt b a with
    | true => rfl
    | false => exact absurd hx hc
  have := strLt_trans a b a h hba
  rw [strLt_irrefl] at this
  exact Bool.noConfusion this

theorem strLt_connex : ∀ a b : Str, strLt a b = false → strLt b a = false → a = b := by
  intro a
  induction a with
  | nil =>
    intro b hab _
    cases b with
    | nil => rfl
    | cons y ys => simp [strLt] at hab
  | cons x xs ih =>
    intro b hab hba
    cases b with
    | nil => simp [strLt] at hba
    | cons y ys =>
      simp only [strLt] at hab hba
      rcases Nat.lt_trichotomy x.toNat y.toNat with h1 | h1 | h1 <;> simp_all
      · have hx : x = y := Char.ext (UInt32.ext h1)
        subst hx
        exact ⟨rfl, ih ys hab hba⟩

theorem strLe_trans (s t u : Str) (h1 : strLe s t = true) (h2 : strLe t u = true) :
    strLe s u = true := by
  simp only [strLe, Bool.not_eq_true'] at h1 h2 ⊢
  by_cases htu : strLt t u = true
  · cases hus : strLt u s with
    | false => rfl
    | true =>
      have := strLt_trans t u s htu hus
      rw [this] at h1
      exact h1
  · have htu' : strLt t u = false := by
      cases hx : strLt t u with
      | true => exact absurd hx htu
      | false => rfl
    have : t = u := strLt_connex t u htu' h2
    subst this
    exact h1

theorem strLe_total (s t : Str) : strLe s t = true ∨ strLe t s = true := by
  simp only [strLe, Bool.not_eq_true']
  cases h : strLt t s with
  | false => exact Or.inl rfl
  | true => exact Or.inr (strLt_asymm t s h)

instance : IsTrans Rec recLe :=
  ⟨fun a b c h1 h2 => strLe_trans a.date b.date c.date h1 h2⟩

instance : IsTotal Rec recLe :=
  ⟨fun a b => strLe_total a.date b.date⟩

theorem lockLoop_attempts_le (env : ℕ → Bool) :
    ∀ fuel rc, (lockLoop env fuel rc).attempts ≤ fuel := by
  intro fuel
  induction fuel with
  | zero => intro rc; rfl
  | succ n ih =>
    intro rc
    simp only [lockLoop]
    split
    · exact Nat.succ_le_succ (Nat.zero_le n)
    · exact Nat.succ_le_succ (ih (rc + 1))

theorem lockLoop_sleeps_increasing (env : ℕ → Bool) :
    ∀ fuel rc, List.Pairwise (· < ·) (lockLoop env fuel rc).sleeps ∧
      (∀ x ∈ (lockLoop env fuel rc).sleeps, 200 * (rc + 1) ≤ x) := by
  intro fuel
  induction fuel with
  | zero => intro rc; exact ⟨List.Pairwise.nil, by intro x hx; cases hx⟩
  | succ n ih =>
    intro rc
    simp only [lockLoop]
    split
    · exact ⟨List.Pairwise.nil, by intro x hx; cases hx⟩
    · refine ⟨List.pairwise_cons.mpr ⟨?_, (ih (rc + 1)).1⟩, ?_⟩
      · intro x hx
        have := (ih (rc + 1)).2 x hx
        omega
      · intro x hx
        rcases List.mem_cons.mp hx with h | h
        · omega
        · have := (ih (rc + 1)).2 x h
          omega

theorem lockLoop_sleeps_le (env : ℕ → Bool) :
    ∀ fuel rc, (lockLoop env fuel rc).sleeps.length ≤ fuel := by
  intro fuel
  induction fuel with
  | zero => intro rc; exact Nat.le_refl 0
  | succ n ih =>
    intro rc
    simp only [lockLoop]
    split
    · exact Nat.zero_le _
    · exact Nat.succ_le_succ (ih (rc + 1))

theorem batchMergeStore_not_mem (s : Store) (b : List (Str × List Rec)) (code : Str)
    (h : code ∉ b.map Prod.fst) : batchMergeStore s b code = s code := by
  induction b generalizing s with
  | nil => rfl
  | cons p t ih =>
    simp only [List.map_cons, List.mem_cons] at h
    push_neg at h
    simp only [batchMergeStore, List.foldl_cons] at *
    rw [ih (storeSet s p.1 p.2) h.2]
    simp [storeSet, h.1]

theorem batchMergeStore_lookup (s : Store) (b : List (Str × List Rec)) (code : Str)
    (recs : List Rec) (hmem : (code, recs) ∈ b) (hnodup : (b.map Prod.fst).Nodup) :
    batchMergeStore s b code = some (recs, recs.length) := by
  induction b generalizing s with
  | nil => cases hmem
  | cons p t ih =>
    simp only [List.map_cons, List.nodup_cons] at hnodup
    rcases List.mem_cons.mp hmem with h | h
    · subst h
      have hstep : batchMergeStore s ((code, recs) :: t) code =
          batchMergeStore (storeSet s code recs) t code := rfl
      rw [hstep, batchMergeStore_not_mem (storeSet s code recs) t code hnodup.1]
      simp [storeSet]
    · have hstep : batchMergeStore s (p :: t) code =
          batchMergeStore (storeSet s p.1 p.2) t code := rfl
      rw [hstep]
      exact ih (storeSet s p.1 p.2) h hnodup.2

/-- A worker invocation on a valid one-record file with a well-formed
`*#000001.day` name and no previously registered fingerprints. -/
def argsGood : WorkerArgs :=
  ⟨['p'], ['F', '#', '0', '0', '0', '0', '0', '1', '.', 'd', 'a', 'y'], buf20230101, none, 1, []⟩

/-- A worker invocation on a corrupt 33-byte file (not a multiple of the
32-byte record size). -/
def args33 : WorkerArgs :=
  ⟨['q'], ['F', '#', '0', '0', '0', '0', '0', '2', '.', 'd', 'a', 'y'],
    List.replicate 33 0, none, 2, []⟩

/-- A worker invocation on a valid one-record file whose name carries no
`'#'`, so the instrument id cannot be extracted. -/
def argsNoHashMark : WorkerArgs :=
  ⟨['r'], ['0', '0', '0', '0', '0', '3', '.', 'd', 'a', 'y'], buf20230101, none, 3, []⟩

/-- A 64-byte file holding the same dated record twice. -/
def dupFile : List ℕ := buf20230101 ++ buf20230101

/-- A record buffer whose `amount` field (field 5) holds the smallest
positive binary32 value `2^-149`, which a 4-decimal rounding would send
to zero. -/
def bufTinyAmount : List ℕ :=
  le4 20230101 ++ le4 0 ++ le4 0 ++ le4 0 ++ le4 0 ++ le4 1 ++ le4 0 ++ le4 0

/-- A record buffer whose date field is `20230230` — February 30th, not a
valid calendar date. -/
def bufBadDate : List ℕ :=
  le4 20230230 ++ le4 0 ++ le4 0 ++ le4 0 ++ le4 0 ++ le4 0 ++ le4 0 ++ le4 0

/-- A record buffer whose 7th field's bytes are `01 00 00 00`: as a
binary32 that is `2^-149`, as an unsigned integer it is `1`. -/
def bufLayoutDiff : List ℕ :=
  le4 20230101 ++ le4 0 ++ le4 0 ++ le4 0 ++ le4 0 ++ le4 0 ++ le4 1 ++ le4 0

/-- A store already holding a one-record series under instrument `"A"`. -/
def oldStore : Store := fun k => if k = ['A'] then some ([emptyRec], 1) else none

/-- A 2049-byte file of zeros. -/
def fMid : List ℕ := List.replicate 2049 0

/-- The same file with only its middle byte (index 1024) changed to 7. -/
def gMid : List ℕ := List.replicate 1024 0 ++ 7 :: List.replicate 1024 0

/-- A digest function for the fingerprint witness. -/
def wMd5 : List ℕ → Str := fun _ => ['h']

/-- A worker invocation on `gMid` whose processed-file registry already
holds the fingerprint of `fMid` (computed with `wMd5`). -/
def argsMid : WorkerArgs :=
  ⟨['s'], ['F', '#', '0', '0', '0', '0', '0', '4', '.', 'd', 'a', 'y'], gMid, none, 4, [['h']]⟩

theorem worker_trace_eq (md5 : List ℕ → Str) (a : WorkerArgs) :
    (process_single_file_enhanced md5 a).2 =
      (if workerSaves md5 a then
        [.storeWrite (extractStockCode a.fileName) (parse_fund_data_mmap a.content a.minDate),
          .progressPut a.fileIndex true]
       else []) := by
  cases h1 : a.processedFiles.contains (calculate_file_hash md5 a.content) with
  | true =>
    have h1m : calculate_file_hash md5 a.content ∈ a.processedFiles := by simpa using h1
    simp [process_single_file_enhanced, workerSaves, h1m]
  | false =>
    have h1m : calculate_file_hash md5 a.content ∉ a.processedFiles := by simpa using h1
    cases h2 : a.fileName.contains '#' with
    | false =>
      have h2m : '#' ∉ a.fileName := by simpa using h2
      simp [process_single_file_enhanced, workerSaves, h1m, h2m]
    | true =>
      have h2m : '#' ∈ a.fileName := by simpa using h2
      cases h3 : (parse_fund_data_mmap a.content a.minDate).isEmpty with
      | true =>
        have h3m : parse_fund_data_mmap a.content a.minDate = [] := by simpa using h3
        simp [process_single_file_enhanced, workerSaves, h1m, h2m, h3m]
      | false =>
        have h3m : ¬ parse_fund_data_mmap a.content a.minDate = [] := by simpa using h3
        simp [process_single_file_enhanced, workerSaves, h1m, h2m, h3m,
          save_to_storage_streaming]

/-- C1 counterexample: on a valid one-record file the worker's own trace
contains a direct store write (the `h5py.File(storage_file, 'a')` block
inside `save_to_storage_streaming`), so the Batch Writer task is not the
only code path that opens the store for writing. -/
theorem C1_counterexample :
    ¬ ((process_single_file_enhanced dMd5 argsGood).2.filter Effect.isStoreWrite = []) := by
  decide

/-- C1 amended: the worker never puts anything on the Batch Writer's
`data_cache_queue` (so the Batch Writer, fed only by that queue, leaves
the store unchanged for any batch size), and the worker's store writes
happen directly in `save_to_storage_streaming` exactly when the file
reaches the save path. -/
theorem C1_amended (md5 : List ℕ → Str) (a : WorkerArgs) (bs : ℕ) (store : Store) :
    (process_single_file_enhanced md5 a).2.filter Effect.isCacheQueuePut = [] ∧
    auto_batch_write_optimized bs (cacheItems (process_single_file_enhanced md5 a).2) store =
      store ∧
    (process_single_file_enhanced md5 a).2.filter Effect.isStoreWrite =
      (if workerSaves md5 a then
        [.storeWrite (extractStockCode a.fileName) (parse_fund_data_mmap a.content a.minDate)]
       else []) := by
  have ht := worker_trace_eq md5 a
  cases hw : workerSaves md5 a with
  | true =>
    rw [ht, hw]
    exact ⟨rfl, rfl, rfl⟩
  | false =>
    rw [ht, hw]
    exact ⟨rfl, rfl, rfl⟩

/-- C2: replace-not-merge — when the Batch Writer merges a batch whose
keys are distinct (a Python dict guarantees this) and the store already
holds a series under one of the batch's instrument ids, afterwards the
store holds under that id exactly the batch's records together with their
count, with nothing of the previous series remaining. -/
theorem C2_replace_semantics (env : ℕ → Bool) (s : Store) (batch : List (Str × List Rec))
    (code : Str) (recs : List Rec) (old : List Rec × ℕ)
    (_hold : s code = some old) (hmem : (code, recs) ∈ batch)
    (hnodup : (batch.map Prod.fst).Nodup) :
    (batch_write_to_hdf5_optimized env s batch).1 code = some (recs, recs.length) := by
  have hne : batch.isEmpty = false := by
    cases batch with
    | nil => cases hmem
    | cons p t => rfl
  have hstep : (batch_write_to_hdf5_optimized env s batch).1 = batchMergeStore s batch := by
    simp [batch_write_to_hdf5_optimized, hne]
  rw [hstep]
  exact batchMergeStore_lookup s batch code recs hmem hnodup

/-- C2 witness: a store holding a placeholder series under `"A"`, merged
with a batch carrying one new record for `"A"`, afterwards holds exactly
that record with count 1. -/
theorem C2_witness :
    oldStore ['A'] = some ([emptyRec], 1) ∧
    (batch_write_to_hdf5_optimized (fun _ => true) oldStore [(['A'], [rec20230101])]).1 ['A'] =
      some ([rec20230101], 1) :=
  ⟨by decide,
    C2_replace_semantics (fun _ => true) oldStore [(['A'], [rec20230101])] ['A']
      [rec20230101] ([emptyRec], 1) (by decide) (by decide) (by decide)⟩

/-- C3 counterexample: on a 33-byte file (not a multiple of the 32-byte
record size) the worker returns failure with an empty effect trace — in
particular it writes no error-sink entry at all, where the claim demands
exactly one. -/
theorem C3_counterexample :
    process_single_file_enhanced dMd5 args33 = (false, []) ∧
    ¬ ((process_single_file_enhanced dMd5 args33).2.countP Effect.isErrorSink = 1) := by
  exact ⟨by decide, by decide⟩

/-- C3 amended: a source file whose byte size is not a multiple of 32 (and
whose fingerprint is not already registered) contributes no records — the
parse returns the empty list — and the worker returns `False` with an
empty effect trace: no store write, but also no error-sink entry and no
progress event (the error sink only ever receives exception diagnostics,
and the progress queue is only fed on the successful save path). -/
theorem C3_amended (md5 : List ℕ → Str) (a : WorkerArgs)
    (hsize : a.content.length % 32 ≠ 0)
    (hnew : a.processedFiles.contains (calculate_file_hash md5 a.content) = false) :
    parse_fund_data_mmap a.content a.minDate = [] ∧
    process_single_file_enhanced md5 a = (false, []) := by
  have hparse : parse_fund_data_mmap a.content a.minDate = [] := by
    simp [parse_fund_data_mmap, hsize]
  refine ⟨hparse, ?_⟩
  have h1m : calculate_file_hash md5 a.content ∉ a.processedFiles := by simpa using hnew
  by_cases h2 : '#' ∈ a.fileName
  · simp [process_single_file_enhanced, h1m, h2, hparse]
  · simp [process_single_file_enhanced, h1m, h2]

/-- C3 witness: the amended statement instantiated at the concrete 33-byte
file. -/
theorem C3_witness :
    args33.content.length % 32 ≠ 0 ∧
    parse_fund_data_mmap args33.content args33.minDate = [] ∧
    process_single_file_enhanced dMd5 args33 = (false, []) :=
  ⟨by decide,
    (C3_amended dMd5 args33 (by decide) (by decide)).1,
    (C3_amended dMd5 args33 (by decide) (by decide)).2⟩

/-- C4 counterexample: a 64-byte file holding the same dated record twice
parses to two records with the same date — the ingested series is not
unique by date. -/
theorem C4_counterexample :
    (parse_fund_data_mmap dupFile none).map Rec.date =
      [['2', '0', '2', '3', '-', '0', '1', '-', '0', '1'],
        ['2', '0', '2', '3', '-', '0', '1', '-', '0', '1']] := by
  decide

/-- C4 amended: for every source file and minimum-date cutoff, the record
list the parser produces — which is exactly what the worker hands to the
store for its instrument — is sorted ascending (non-strictly) by date;
duplicate dates are preserved, not deduplicated. -/
theorem C4_amended (file : List ℕ) (md : Option Str) :
    List.Sorted recLe (parse_fund_data_mmap file md) := by
  unfold parse_fund_data_mmap
  split
  · exact List.sorted_nil
  · exact List.sorted_insertionSort recLe _

/-- C5 counterexample: a buffer whose `amount` field is the smallest
positive binary32 `2^-149` decodes to a record whose stored `amount` is
that raw value, although its 4-decimal rounding is zero — so `amount` is
not rounded to 4 decimal places by the decoder. -/
theorem C5_counterexample :
    ((parse_fund_data_mmap bufTinyAmount none).headD emptyRec).amount =
        some (.finite ⟨false, 10 ^ 4⟩) ∧
      round4 (.finite ⟨false, 10 ^ 4⟩) = .finite ⟨false, 0⟩ ∧
      (.finite ⟨false, (10 : ℕ) ^ 4⟩ : PyF) ≠ .finite ⟨false, 0⟩ := by
  exact ⟨by decide, by decide, by decide⟩

/-- C5 amended: on every 32-byte buffer the decoder rounds `open`, `high`,
`low` and `close` to 4 decimal places, while `amount` and `volume` are
passed through unrounded — only normalised to `None` when zero
(`prev_close` comes from an integer field and is returned as that
integer). -/
theorem C5_amended (b : List ℕ) (h : b.length = 32) :
    ∃ r : Rec, decodeBuffer none b = some r ∧
      r.opn = round4 (decodeF32 (fieldSlice b 1)) ∧
      r.high = round4 (decodeF32 (fieldSlice b 2)) ∧
      r.low = round4 (decodeF32 (fieldSlice b 3)) ∧
      r.close = round4 (decodeF32 (fieldSlice b 4)) ∧
      r.amount = (if isZeroF (decodeF32 (fieldSlice b 5)) then none
        else some (decodeF32 (fieldSlice b 5))) ∧
      r.volume = (if isZeroF (decodeF32 (fieldSlice b 6)) then none
        else some (decodeF32 (fieldSlice b 6))) ∧
      r.prev_close = (if u32le (fieldSlice b 7) = 0 then none
        else some (u32le (fieldSlice b 7))) := by
  refine ⟨mkRec1 ⟨u32le (fieldSlice b 0), decodeF32 (fieldSlice b 1), decodeF32 (fieldSlice b 2),
    decodeF32 (fieldSlice b 3), decodeF32 (fieldSlice b 4), decodeF32 (fieldSlice b 5),
    decodeF32 (fieldSlice b 6), u32le (fieldSlice b 7)⟩, ?_, rfl, rfl, rfl, rfl, rfl, rfl, rfl⟩
  simp [decodeBuffer, unpackFmt1, h, calcsizeFmt1, minDateSkips]

/-- C5 witness: the amended statement instantiated at the concrete
one-record buffer `bufTinyAmount`. -/
theorem C5_witness :
    bufTinyAmount.length = 32 ∧
    (∃ r : Rec, decodeBuffer none bufTinyAmount = some r ∧
      r.opn = round4 (decodeF32 (fieldSlice bufTinyAmount 1)) ∧
      r.high = round4 (decodeF32 (fieldSlice bufTinyAmount 2)) ∧
      r.low = round4 (decodeF32 (fieldSlice bufTinyAmount 3)) ∧
      r.close = round4 (decodeF32 (fieldSlice bufTinyAmount 4)) ∧
      r.amount = (if isZeroF (decodeF32 (fieldSlice bufTinyAmount 5)) then none
        else some (decodeF32 (fieldSlice bufTinyAmount 5))) ∧
      r.volume = (if isZeroF (decodeF32 (fieldSlice bufTinyAmount 6)) then none
        else some (decodeF32 (fieldSlice bufTinyAmount 6))) ∧
      r.prev_close = (if u32le (fieldSlice bufTinyAmount 7) = 0 then none
        else some (u32le (fieldSlice bufTinyAmount 7)))) :=
  ⟨by decide, C5_amended bufTinyAmount (by decide)⟩

/-- C6 counterexample: a buffer whose date field is `20230230` — not a
valid calendar date — still contributes a record, dated `"2023-02-30"`:
the decoder performs no calendar validation. -/
theorem C6_counterexample :
    validCalendarDate 2023 2 30 = false ∧
    (parse_fund_data_mmap bufBadDate none).length = 1 ∧
    ((parse_fund_data_mmap bufBadDate none).headD emptyRec).date =
      ['2', '0', '2', '3', '-', '0', '2', '-', '3', '0'] := by
  exact ⟨by decide, by decide, by decide⟩

/-- C6 amended: the decoder decomposes the leading 8-digit integer into
year, month and day and formats them as `YYYY-MM-DD`, but performs no
calendar validation: every 32-byte buffer contributes a record (absent a
minimum-date cutoff) whose date is that formatted decomposition, whether
or not it is a real calendar date. -/
theorem C6_amended (b : List ℕ) (h : b.length = 32) :
    ∃ r : Rec, decodeBuffer none b = some r ∧
      r.date = dateStr (u32le (fieldSlice b 0)) := by
  refine ⟨mkRec1 ⟨u32le (fieldSlice b 0), decodeF32 (fieldSlice b 1), decodeF32 (fieldSlice b 2),
    decodeF32 (fieldSlice b 3), decodeF32 (fieldSlice b 4), decodeF32 (fieldSlice b 5),
    decodeF32 (fieldSlice b 6), u32le (fieldSlice b 7)⟩, ?_, rfl⟩
  simp [decodeBuffer, unpackFmt1, h, calcsizeFmt1, minDateSkips]

/-- C6 witness: the amended statement instantiated at the invalid-date
buffer `bufBadDate`. -/
theorem C6_witness :
    bufBadDate.length = 32 ∧
    (∃ r : Rec, decodeBuffer none bufBadDate = some r ∧
      r.date = dateStr (u32le (fieldSlice bufBadDate 0))) :=
  ⟨by decide, C6_amended bufBadDate (by decide)⟩

/-- C7 counterexample: a file whose name carries no `'#'` is handed to the
worker and processed to a failure, yet zero progress events are emitted —
not the exactly-one event the claim requires regardless of outcome. -/
theorem C7_counterexample :
    process_single_file_enhanced dMd5 argsNoHashMark = (false, []) ∧
    ¬ ((process_single_file_enhanced dMd5 argsNoHashMark).2.countP Effect.isProgressPut = 1) := by
  exact ⟨by decide, by decide⟩

/-- C7 amended: the worker emits exactly one progress event — always with
`success = True`, the literal of source line 406 — when and only when the
file reaches the successful save path; skipped and failed files emit no
progress event at all. -/
theorem C7_amended (md5 : List ℕ → Str) (a : WorkerArgs) :
    (process_single_file_enhanced md5 a).2.filter Effect.isProgressPut =
      (if workerSaves md5 a then [.progressPut a.fileIndex true] else []) := by
  have ht := worker_trace_eq md5 a
  cases hw : workerSaves md5 a with
  | true =>
    rw [ht, hw]
    rfl
  | false =>
    rw [ht, hw]
    rfl

/-- C8: the LockFile loop makes at most `max_retries = 10` exclusive-create
attempts, sleeps strictly increasing backoff intervals between attempts
(at most 10 of them), and the merge result of
`batch_write_to_hdf5_optimized` is the full replace-write of the batch
whether or not the lock was ever acquired — the merge never waits on the
lock beyond the bounded retry loop. -/
theorem C8_lock_bounded (env : ℕ → Bool) (s : Store) (batch : List (Str × List Rec)) :
    (acquireLock env).attempts ≤ max_retries ∧
    List.Pairwise (· < ·) (acquireLock env).sleeps ∧
    (acquireLock env).sleeps.length ≤ max_retries ∧
    (batch_write_to_hdf5_optimized env s batch).1 =
      (if batch.isEmpty then s else batchMergeStore s batch) := by
  refine ⟨lockLoop_attempts_le env max_retries 0,
    (lockLoop_sleeps_increasing env max_retries 0).1,
    lockLoop_sleeps_le env max_retries 0, ?_⟩
  cases h : batch.isEmpty with
  | true => simp [batch_write_to_hdf5_optimized, h]
  | false => simp [batch_write_to_hdf5_optimized, h]

/-- C9 counterexample: the two candidate layouts do not yield identical
field values — on a buffer whose 7th field's bytes are `01 00 00 00`, the
primary layout reads the binary32 value `2^-149` where the alternate
layout reads the integer `1`, and those are different numbers. -/
theorem C9_counterexample :
    (unpackFmt1 bufLayoutDiff).map Fields1.f6 = some (.finite ⟨false, 10 ^ 4⟩) ∧
    (unpackFmt2 bufLayoutDiff).map (fun g => intAsPyF g.i6) = some (intAsPyF 1) ∧
    (.finite ⟨false, (10 : ℕ) ^ 4⟩ : PyF) ≠ intAsPyF 1 := by
  exact ⟨by decide, by decide, by decide⟩

/-- C9 amended: both layouts describe exactly 32 bytes, so unpacking a
32-byte buffer under the primary layout `'IffffffI'` always succeeds and
the alternate-layout and skip-record branches are unreachable, and the
only way such a buffer contributes no record is the minimum-date filter;
however, the two layouts would not yield identical field values (the 7th
field is reinterpreted, see the counterexample). -/
theorem C9_amended (b : List ℕ) (h : b.length = 32) :
    calcsizeFmt1 = 32 ∧ calcsizeFmt2 = 32 ∧
    (unpackFmt1 b).isSome = true ∧
    (∀ md : Option Str, decodeBuffer md b = none ↔
      minDateSkips md (dateStr (u32le (fieldSlice b 0))) = true) := by
  refine ⟨rfl, rfl, ?_, ?_⟩
  · simp [unpackFmt1, h, calcsizeFmt1]
  · intro md
    simp only [decodeBuffer, unpackFmt1, h, calcsizeFmt1]
    cases hm : minDateSkips md (dateStr (u32le (fieldSlice b 0))) with
    | true => simp [hm]
    | false => simp [hm]

/-- C9 witness: the amended statement instantiated at the concrete buffer
`buf20230101`. -/
theorem C9_witness :
    buf20230101.length = 32 ∧
    (calcsizeFmt1 = 32 ∧ calcsizeFmt2 = 32 ∧
      (unpackFmt1 buf20230101).isSome = true ∧
      (∀ md : Option Str, decodeBuffer md buf20230101 = none ↔
        minDateSkips md (dateStr (u32le (fieldSlice buf20230101 0))) = true)) :=
  ⟨by decide, C9_amended buf20230101 (by decide)⟩

/-- C10: the fingerprint of `calculate_file_hash` samples only the first
and last 1024 bytes — two files larger than 2048 bytes that agree on that
prefix and suffix get the same MD5 input, hence the same fingerprint,
whatever their middles or lengths; consequently a worker whose
processed-file registry holds that fingerprint skips such a file
entirely, returning success with no effects. -/
theorem C10_fingerprint (md5 : List ℕ → Str) (f g : List ℕ) (a : WorkerArgs)
    (hf : 2048 < f.length) (hg : 2048 < g.length)
    (hpre : f.take 1024 = g.take 1024)
    (hsuf : f.drop (f.length - 1024) = g.drop (g.length - 1024))
    (hcontent : a.content = g)
    (hmem : a.processedFiles.contains (calculate_file_hash md5 f) = true) :
    hashSample f = hashSample g ∧
    calculate_file_hash md5 f = calculate_file_hash md5 g ∧
    process_single_file_enhanced md5 a = (true, []) := by
  have hsample : hashSample f = hashSample g := by
    simp only [hashSample, if_pos hf, if_pos hg, hpre, hsuf]
  have hhash : calculate_file_hash md5 f = calculate_file_hash md5 g := by
    simp only [calculate_file_hash, hsample]
  refine ⟨hsample, hhash, ?_⟩
  have hmem' : a.processedFiles.contains (calculate_file_hash md5 a.content) = true := by
    rw [hcontent, ← hhash]
    exact hmem
  have h1m : calculate_file_hash md5 a.content ∈ a.processedFiles := by simpa using hmem'
  simp [process_single_file_enhanced, h1m]

/-- C10 witness: a 2049-byte file of zeros and the same file with only its
middle byte changed share a fingerprint, and the worker skips the altered
file when the original's fingerprint is registered. -/
theorem C10_witness :
    hashSample fMid = hashSample gMid ∧
    calculate_file_hash wMd5 fMid = calculate_file_hash wMd5 gMid ∧
    process_single_file_enhanced wMd5 argsMid = (true, []) :=
  C10_fingerprint wMd5 fMid gMid argsMid
    (by simp [fMid])
    (by simp [gMid])
    (by simp [fMid, gMid, List.take_append_eq_append_take, List.take_replicate])
    (by simp [fMid, gMid, List.drop_append_eq_append_drop, List.drop_replicate])
    rfl
    (by decide)
